import Mathlib

/-!
Verification of `src/frontend/remove_bg.py` (EdgeAI-Chain/edgeai-alpha).

The script defines one function, `remove_black_background(input_path,
output_path)`, which

  * decodes the file at `input_path` via `Image.open(...).convert("RGBA")`,
  * builds `black_mask = (R < 30) & (G < 30) & (B < 30)` elementwise,
  * sets the alpha channel to `0` at mask-true positions,
  * saves the result with `new_img.save(output_path)` (no explicit format,
    so PIL infers the container format from the path's extension), and
  * prints `f"Processed image saved to {output_path}"`.

We embed the in-memory pixel array as a list of rows of RGBA pixels, the
pure pixel transformation directly from the numpy code, and the effectful
shell (decode, save, print) as a function from an abstract environment to
a trace of externally visible events plus an `Except` result.
-/

namespace RemoveBg

/-- One RGBA pixel of the decoded array: four 8-bit unsigned channels,
modelled as naturals (`np.array(img)` on an RGBA image yields `uint8`
values in `0..255`; no arithmetic here can overflow or wrap). -/
structure Pixel where
  r : Nat
  g : Nat
  b : Nat
  a : Nat
deriving DecidableEq, Repr

/-- The decoded image `data = np.array(img)`: a grid of RGBA pixels,
rows listed top to bottom. -/
abbrev Img : Type := List (List Pixel)

/-- `threshold = 30` from the source. -/
def threshold : Nat := 30

/-- `black_mask` at one pixel:
`(data[:,:,0] < threshold) & (data[:,:,1] < threshold) & (data[:,:,2] < threshold)`
is an elementwise conjunction of strict comparisons. -/
def black_mask (p : Pixel) : Bool :=
  decide (p.r < threshold) && decide (p.g < threshold) && decide (p.b < threshold)

/-- Effect of `data[black_mask, 3] = 0` on one pixel: alpha forced to `0`
where the mask is true, the pixel untouched elsewhere. -/
def transformPixel (p : Pixel) : Pixel :=
  if black_mask p then { p with a := 0 } else p

/-- The whole elementwise update `data[black_mask, 3] = 0` on the grid. -/
def transformImage (img : Img) : Img :=
  img.map (fun row => row.map transformPixel)

/-- Pixel lookup at row `y`, column `x` (`data[y, x]`), `none` out of range. -/
def getPixel (img : Img) (y x : Nat) : Option Pixel :=
  img[y]?.bind (fun row => row[x]?)

/-- A three-channel source pixel, as decoded from an image file that has
no alpha channel. -/
structure RGBPixel where
  r : Nat
  g : Nat
  b : Nat
deriving DecidableEq, Repr

/-- `convert("RGBA")` on a pixel with no source alpha: the RGB values are
kept and a fully opaque alpha of `255` is added. -/
def addAlpha (p : RGBPixel) : Pixel :=
  ⟨p.r, p.g, p.b, 255⟩

/-- `Image.open(...).convert("RGBA")` applied to a decoded three-channel
source: every pixel gains alpha `255`. -/
def convertRGBAofRGB (src : List (List RGBPixel)) : Img :=
  src.map (fun row => row.map addAlpha)

/-- `path` ends with the literal extension `ext` (character-wise suffix). -/
def hasExt (path ext : String) : Bool :=
  ext.data.isSuffixOf path.data

/-- `new_img.save(output_path)` passes no explicit format, so PIL infers
the container format from the output path's extension via its extension
registry; `none` models an extension PIL does not recognise (the save then
raises `ValueError` before writing anything). Only the registry entries
this development reasons about are listed. -/
def pilFormatFromExtension (path : String) : Option String :=
  if hasExt path ".png" then some "PNG"
  else if hasExt path ".jpg" then some "JPEG"
  else if hasExt path ".jpeg" then some "JPEG"
  else if hasExt path ".webp" then some "WEBP"
  else if hasExt path ".tiff" then some "TIFF"
  else if hasExt path ".gif" then some "GIF"
  else none

/-- Whether the container format stores a per-pixel alpha channel. PNG,
WEBP and TIFF do. JPEG does not. GIF does not either: a GIF holds a
palette image with at most a single transparent palette index (1-bit
transparency), not an 8-bit per-pixel alpha channel. -/
def formatSupportsAlpha (fmt : String) : Bool :=
  fmt == "PNG" || fmt == "WEBP" || fmt == "TIFF"

/-- Whether Pillow's encoder accepts an RGBA array for the format. PNG,
WEBP and TIFF encode the alpha channel as is. GIF also accepts RGBA: the
encoder converts the array to a palette image with a transparency index
and writes the file successfully (the written container has no per-pixel
alpha channel). JPEG is refused: the save raises `OSError: cannot write
mode RGBA as JPEG` after the output file has been opened and truncated. -/
def pilAcceptsRGBA (fmt : String) : Bool :=
  fmt == "PNG" || fmt == "WEBP" || fmt == "TIFF" || fmt == "GIF"

/-- Externally visible effects of one call, in order of occurrence. A
`wrote` event records the container format the file was encoded into and
the in-memory RGBA array handed to that format's encoder (for GIF the
encoder itself then reduces the array to a palette with 1-bit
transparency; the recorded array is the one the program supplied). -/
inductive Event
  | wrote (path : String) (fmt : String) (img : Img)
  | truncatedFile (path : String)
  | printed (line : String)
deriving DecidableEq, Repr

/-- The two failure kinds: `Image.open`/decode raising, and the save
raising. The source has no try/except, so both escape the function. -/
inductive RBError
  | decodeFailure
  | writeFailure
deriving DecidableEq, Repr

/-- Outcome of the underlying file write once PIL has accepted the format:
success, failure leaving a truncated file behind, or failure leaving no
file (e.g. the directory does not exist). -/
inductive WriteResult
  | ok
  | failTruncated
  | failAbsent
deriving DecidableEq, Repr

/-- The process environment a call runs against: what decoding a path
yields (`none` when `Image.open`/`convert` raises), and how the file
system treats a write of the encoded image. -/
structure Env where
  load : String → Option Img
  write : String → Img → WriteResult

/-- Shallow embedding of `remove_black_background(input_path, output_path)`:
decode and normalise to RGBA, apply the masked alpha update, save with the
format inferred from the output extension, print the confirmation line.
Returns the trace of visible events and the propagated result. -/
def remove_black_background (env : Env) (input_path output_path : String) :
    List Event × Except RBError Unit :=
  match env.load input_path with
  | none => ([], Except.error RBError.decodeFailure)
  | some img =>
    let data := transformImage img
    match pilFormatFromExtension output_path with
    | none => ([], Except.error RBError.writeFailure)
    | some fmt =>
      if pilAcceptsRGBA fmt then
        match env.write output_path data with
        | WriteResult.ok =>
            ([Event.wrote output_path fmt data,
              Event.printed ("Processed image saved to " ++ output_path)],
             Except.ok ())
        | WriteResult.failTruncated =>
            ([Event.truncatedFile output_path], Except.error RBError.writeFailure)
        | WriteResult.failAbsent =>
            ([], Except.error RBError.writeFailure)
      else
        ([Event.truncatedFile output_path], Except.error RBError.writeFailure)

/-- The lines the call emits to standard output, in order. -/
def printedLines (tr : List Event) : List String :=
  tr.filterMap (fun e =>
    match e with
    | Event.printed s => some s
    | _ => none)

/-- The complete files the call leaves at a path: the images of the
`wrote` events for that path. -/
def filesWrittenAt (tr : List Event) (path : String) : List Img :=
  tr.filterMap (fun e =>
    match e with
    | Event.wrote p _ img => if p = path then some img else none
    | _ => none)

/-- The 2×2 image of the spec's Scenario A: pixels (0,0,0), (10,5,2),
(40,40,40), (255,255,255), each with alpha 255. -/
def imgA : Img :=
  [[⟨0, 0, 0, 255⟩, ⟨10, 5, 2, 255⟩],
   [⟨40, 40, 40, 255⟩, ⟨255, 255, 255, 255⟩]]

/-- A concrete environment: every path decodes to `imgA`, every write
succeeds. -/
def envA : Env :=
  ⟨fun _ => some imgA, fun _ _ => WriteResult.ok⟩

/-- A concrete environment in which decoding always raises. -/
def envNoLoad : Env :=
  ⟨fun _ => none, fun _ _ => WriteResult.ok⟩

/-! ### Basic lemmas about the pixel transformation -/

theorem black_mask_iff (p : Pixel) :
    black_mask p = true ↔ p.r < 30 ∧ p.g < 30 ∧ p.b < 30 := by
  simp [black_mask, threshold, and_assoc]

theorem transformPixel_r (p : Pixel) : (transformPixel p).r = p.r := by
  unfold transformPixel; split <;> rfl

theorem transformPixel_g (p : Pixel) : (transformPixel p).g = p.g := by
  unfold transformPixel; split <;> rfl

theorem transformPixel_b (p : Pixel) : (transformPixel p).b = p.b := by
  unfold transformPixel; split <;> rfl

theorem transformPixel_a_le (p : Pixel) : (transformPixel p).a ≤ p.a := by
  unfold transformPixel
  split
  · exact Nat.zero_le _
  · exact Nat.le_refl _

theorem transformPixel_of_mask_false {p : Pixel} (h : black_mask p = false) :
    transformPixel p = p := by
  unfold transformPixel
  rw [h]
  rfl

theorem transformPixel_a_of_mask_true {p : Pixel} (h : black_mask p = true) :
    (transformPixel p).a = 0 := by
  unfold transformPixel
  rw [h]
  rfl

theorem black_mask_transformPixel (p : Pixel) :
    black_mask (transformPixel p) = black_mask p := by
  unfold transformPixel
  split <;> simp [black_mask]

theorem transformPixel_idem (p : Pixel) :
    transformPixel (transformPixel p) = transformPixel p := by
  by_cases hm : black_mask p = true
  · have h2 : black_mask { p with a := 0 } = black_mask p := rfl
    simp [transformPixel, hm, h2]
  · simp [transformPixel, hm]

theorem getPixel_transformImage (img : Img) (y x : Nat) :
    getPixel (transformImage img) y x =
      Option.map transformPixel (getPixel img y x) := by
  unfold getPixel transformImage
  rw [List.getElem?_map]
  cases img[y]? with
  | none => rfl
  | some row => simp [List.getElem?_map]

theorem getPixel_convertRGBAofRGB (src : List (List RGBPixel)) (y x : Nat) :
    getPixel (convertRGBAofRGB src) y x =
      Option.map addAlpha (src[y]?.bind (fun row => row[x]?)) := by
  unfold getPixel convertRGBAofRGB
  rw [List.getElem?_map]
  cases src[y]? with
  | none => rfl
  | some row => simp [List.getElem?_map]

theorem transformImage_length (img : Img) :
    (transformImage img).length = img.length := by
  unfold transformImage
  exact List.length_map _ _

theorem transformImage_row_length (img : Img) (y : Nat) :
    ((transformImage img)[y]?).map List.length = (img[y]?).map List.length := by
  unfold transformImage
  rw [List.getElem?_map]
  cases img[y]? with
  | none => rfl
  | some row => simp [List.length_map]

/-! ### Branch equations for the effectful shell -/

theorem run_eq_of_load_none {env : Env} {ip : String} (op : String)
    (h : env.load ip = none) :
    remove_black_background env ip op = ([], Except.error RBError.decodeFailure) := by
  unfold remove_black_background
  rw [h]

theorem run_eq_of_ok {env : Env} {ip op : String} {img : Img} {fmt : String}
    (himg : env.load ip = some img)
    (hfmt : pilFormatFromExtension op = some fmt)
    (hsa : pilAcceptsRGBA fmt = true)
    (hw : env.write op (transformImage img) = WriteResult.ok) :
    remove_black_background env ip op =
      ([Event.wrote op fmt (transformImage img),
        Event.printed ("Processed image saved to " ++ op)], Except.ok ()) := by
  unfold remove_black_background
  rw [himg]
  simp only [hfmt, hsa, hw, if_true]

theorem run_ok_inv {env : Env} {ip op : String}
    (h : (remove_black_background env ip op).2 = Except.ok ()) :
    ∃ img fmt, env.load ip = some img ∧ pilFormatFromExtension op = some fmt ∧
      pilAcceptsRGBA fmt = true ∧
      env.write op (transformImage img) = WriteResult.ok := by
  unfold remove_black_background at h
  cases hload : env.load ip with
  | none => rw [hload] at h; simp at h
  | some img =>
    rw [hload] at h
    cases hfmt : pilFormatFromExtension op with
    | none => rw [hfmt] at h; simp at h
    | some fmt =>
      rw [hfmt] at h
      dsimp only at h
      by_cases hsa : pilAcceptsRGBA fmt = true
      · rw [if_pos hsa] at h
        cases hw : env.write op (transformImage img) with
        | ok => exact ⟨img, fmt, rfl, rfl, hsa, hw⟩
        | failTruncated => rw [hw] at h; simp at h
        | failAbsent => rw [hw] at h; simp at h
      · rw [if_neg hsa] at h
        simp at h

theorem run_trace_of_ok {env : Env} {ip op : String}
    (h : (remove_black_background env ip op).2 = Except.ok ()) :
    ∃ img fmt,
      env.load ip = some img ∧ pilFormatFromExtension op = some fmt ∧
      (remove_black_background env ip op).1 =
        [Event.wrote op fmt (transformImage img),
         Event.printed ("Processed image saved to " ++ op)] := by
  obtain ⟨img, fmt, himg, hfmt, hsa, hw⟩ := run_ok_inv h
  exact ⟨img, fmt, himg, hfmt, by rw [run_eq_of_ok himg hfmt hsa hw]⟩

theorem run_wrote_inv {env : Env} {ip op : String} {p fmt : String} {data : Img}
    (h : Event.wrote p fmt data ∈ (remove_black_background env ip op).1) :
    ∃ img, env.load ip = some img ∧ p = op ∧
      pilFormatFromExtension op = some fmt ∧ pilAcceptsRGBA fmt = true ∧
      data = transformImage img := by
  unfold remove_black_background at h
  cases hload : env.load ip with
  | none => rw [hload] at h; simp at h
  | some img =>
    rw [hload] at h
    cases hfmt : pilFormatFromExtension op with
    | none => rw [hfmt] at h; simp at h
    | some fmt2 =>
      rw [hfmt] at h
      dsimp only at h
      by_cases hsa : pilAcceptsRGBA fmt2 = true
      · rw [if_pos hsa] at h
        cases hw : env.write op (transformImage img) with
        | ok =>
          rw [hw] at h
          simp only [List.mem_cons, List.mem_singleton] at h
          rcases h with h | h
          · obtain ⟨hp, hf, hd⟩ := Event.wrote.inj h
            exact ⟨img, rfl, hp, by rw [hf], by rw [hf]; exact hsa, hd⟩
          · cases h with
            | inl h => exact absurd h (by simp)
            | inr h => simp at h
        | failTruncated => rw [hw] at h; simp at h
        | failAbsent => rw [hw] at h; simp at h
      · rw [if_neg hsa] at h
        simp at h

/-! ### The claims -/

/-- Claim C1: for every input image and every pixel whose original red, green
and blue values are each strictly below 30, the alpha value of that pixel in
the image written by `remove_black_background` is 0. -/
theorem C1_dark_pixels_written_transparent (env : Env) (ip op p fmt : String)
    (img data : Img) (y x : Nat) (q : Pixel)
    (hload : env.load ip = some img)
    (hwrote : Event.wrote p fmt data ∈ (remove_black_background env ip op).1)
    (hq : getPixel img y x = some q)
    (hr : q.r < 30) (hg : q.g < 30) (hb : q.b < 30) :
    ∃ q', getPixel data y x = some q' ∧ q'.a = 0 := by
  obtain ⟨img2, hload2, _, _, _, hdata⟩ := run_wrote_inv hwrote
  rw [hload] at hload2
  obtain rfl : img = img2 := Option.some.inj hload2
  subst hdata
  rw [getPixel_transformImage, hq]
  exact ⟨transformPixel q, rfl,
         transformPixel_a_of_mask_true ((black_mask_iff q).mpr ⟨hr, hg, hb⟩)⟩

/-- Witness for C1 at Scenario A's black pixel through a full successful run. -/
theorem C1_witness :
    ∃ q', getPixel (transformImage imgA) 0 0 = some q' ∧ q'.a = 0 :=
  C1_dark_pixels_written_transparent envA "in.png" "out.png" "out.png" "PNG"
    imgA (transformImage imgA) 0 0 ⟨0, 0, 0, 255⟩ rfl (by decide) rfl
    (by decide) (by decide) (by decide)

/-- Claim C2: at every pixel that is not near-black (not all of red, green,
blue below 30) the output alpha equals the input alpha, and it equals 255
when the input image had no alpha channel, since `convert("RGBA")` gives
every such pixel alpha 255 during load. -/
theorem C2_unmasked_alpha_preserved :
    (∀ (img : Img) (y x : Nat) (p : Pixel),
      getPixel img y x = some p → ¬(p.r < 30 ∧ p.g < 30 ∧ p.b < 30) →
      ∃ p', getPixel (transformImage img) y x = some p' ∧ p'.a = p.a) ∧
    (∀ (src : List (List RGBPixel)) (y x : Nat) (p : Pixel),
      getPixel (convertRGBAofRGB src) y x = some p →
      ¬(p.r < 30 ∧ p.g < 30 ∧ p.b < 30) →
      ∃ p', getPixel (transformImage (convertRGBAofRGB src)) y x = some p' ∧
        p'.a = 255) := by
  have part1 : ∀ (img : Img) (y x : Nat) (p : Pixel),
      getPixel img y x = some p → ¬(p.r < 30 ∧ p.g < 30 ∧ p.b < 30) →
      ∃ p', getPixel (transformImage img) y x = some p' ∧ p'.a = p.a := by
    intro img y x p hp hnm
    have hm : black_mask p = false := by
      cases hb : black_mask p
      · rfl
      · exact absurd ((black_mask_iff p).mp hb) hnm
    refine ⟨transformPixel p, by rw [getPixel_transformImage, hp]; rfl, ?_⟩
    rw [transformPixel_of_mask_false hm]
  refine ⟨part1, ?_⟩
  intro src y x p hp hnm
  have ha : p.a = 255 := by
    have hp2 := hp
    rw [getPixel_convertRGBAofRGB] at hp2
    obtain ⟨q, _, hq⟩ := Option.map_eq_some'.mp hp2
    rw [← hq]
    rfl
  obtain ⟨p', hp', ha'⟩ := part1 (convertRGBAofRGB src) y x p hp hnm
  exact ⟨p', hp', by rw [ha', ha]⟩

/-- Witness for C2 at Scenario A's white pixel and at a one-pixel
three-channel source image. -/
theorem C2_witness :
    (∃ p', getPixel (transformImage imgA) 1 1 = some p' ∧ p'.a = 255) ∧
    (∃ p', getPixel (transformImage (convertRGBAofRGB [[⟨200, 10, 10⟩]])) 0 0 =
      some p' ∧ p'.a = 255) :=
  ⟨C2_unmasked_alpha_preserved.1 imgA 1 1 ⟨255, 255, 255, 255⟩ rfl (by decide),
   C2_unmasked_alpha_preserved.2 [[⟨200, 10, 10⟩]] 0 0 ⟨200, 10, 10, 255⟩ rfl
     (by decide)⟩

/-- Claim C3: the transformation leaves every pixel's red, green and blue
values unchanged, and preserves the image's height and every row's width;
only alpha may differ. -/
theorem C3_rgb_and_dims_unchanged (img : Img) :
    (transformImage img).length = img.length ∧
    (∀ y : Nat,
      ((transformImage img)[y]?).map List.length = (img[y]?).map List.length) ∧
    (∀ (y x : Nat) (p : Pixel), getPixel img y x = some p →
      ∃ p', getPixel (transformImage img) y x = some p' ∧
        p'.r = p.r ∧ p'.g = p.g ∧ p'.b = p.b) := by
  refine ⟨transformImage_length img, fun y => transformImage_row_length img y, ?_⟩
  intro y x p hp
  exact ⟨transformPixel p, by rw [getPixel_transformImage, hp]; rfl,
         transformPixel_r p, transformPixel_g p, transformPixel_b p⟩

/-- Witness for C3 on Scenario A. -/
theorem C3_witness :
    (transformImage imgA).length = imgA.length ∧
    (∃ p', getPixel (transformImage imgA) 1 0 = some p' ∧
      p'.r = 40 ∧ p'.g = 40 ∧ p'.b = 40) :=
  ⟨(C3_rgb_and_dims_unchanged imgA).1,
   (C3_rgb_and_dims_unchanged imgA).2.2 1 0 ⟨40, 40, 40, 255⟩ rfl⟩

/-- Claim C4 as stated is false, two ways, with a decodable input and a
writable file system. Output path `out.jpg`: PIL infers JPEG and the save
raises, so no image is written at all instead of an alpha-capable format
being chosen. Output path `out.gif`: PIL infers GIF and the save succeeds,
so the result is written in a container with no per-pixel alpha channel. -/
theorem C4_counterexample :
    (pilFormatFromExtension "out.jpg" = some "JPEG" ∧
     formatSupportsAlpha "JPEG" = false ∧
     filesWrittenAt (remove_black_background envA "in.png" "out.jpg").1
       "out.jpg" = [] ∧
     (remove_black_background envA "in.png" "out.jpg").2 =
       Except.error RBError.writeFailure) ∧
    (pilFormatFromExtension "out.gif" = some "GIF" ∧
     formatSupportsAlpha "GIF" = false ∧
     (remove_black_background envA "in.png" "out.gif").1 =
       [Event.wrote "out.gif" "GIF" (transformImage imgA),
        Event.printed ("Processed image saved to " ++ "out.gif")] ∧
     (remove_black_background envA "in.png" "out.gif").2 = Except.ok ()) := by
  exact ⟨⟨rfl, rfl, rfl, rfl⟩, ⟨rfl, rfl, rfl, rfl⟩⟩

/-- Claim C4 amended: the container format of every file
`remove_black_background` writes is the one PIL infers from the output
path's extension — never overridden towards alpha support — and when the
output path ends in `.png` (as in the script's entry point) that format is
PNG, which does support a per-pixel alpha channel. -/
theorem C4_format_follows_extension (env : Env) (ip op p fmt : String)
    (data : Img)
    (h : Event.wrote p fmt data ∈ (remove_black_background env ip op).1) :
    pilFormatFromExtension op = some fmt ∧
    (hasExt op ".png" = true → fmt = "PNG" ∧ formatSupportsAlpha fmt = true) := by
  obtain ⟨img, _, _, hfmt, _, _⟩ := run_wrote_inv h
  refine ⟨hfmt, fun hpng => ?_⟩
  rw [pilFormatFromExtension, if_pos hpng] at hfmt
  have hf : fmt = "PNG" := (Option.some.inj hfmt).symm
  subst hf
  exact ⟨rfl, rfl⟩

/-- Witness for the amended C4 on a successful `.png` run, with the
extension hypothesis discharged. -/
theorem C4_witness :
    pilFormatFromExtension "out.png" = some "PNG" ∧
    "PNG" = "PNG" ∧ formatSupportsAlpha "PNG" = true :=
  ⟨(C4_format_follows_extension envA "in.png" "out.png" "out.png" "PNG"
      (transformImage imgA) (by decide)).1,
   (C4_format_follows_extension envA "in.png" "out.png" "out.png" "PNG"
      (transformImage imgA) (by decide)).2 rfl⟩

/-- Claim C5: a pixel whose red, green and blue values are all exactly 30 is
not masked (the comparison is strict less-than), so the transformation leaves
it, alpha included, unchanged. -/
theorem C5_boundary_pixel_unmasked (img : Img) (y x a : Nat)
    (h : getPixel img y x = some ⟨30, 30, 30, a⟩) :
    getPixel (transformImage img) y x = some ⟨30, 30, 30, a⟩ := by
  rw [getPixel_transformImage, h]
  have hm : black_mask ⟨30, 30, 30, a⟩ = false := by
    simp [black_mask, threshold]
  rw [Option.map_some', transformPixel_of_mask_false hm]

/-- Witness for C5 at a single (30,30,30) pixel with alpha 200. -/
theorem C5_witness :
    getPixel (transformImage [[⟨30, 30, 30, 200⟩]]) 0 0 =
      some ⟨30, 30, 30, 200⟩ :=
  C5_boundary_pixel_unmasked [[⟨30, 30, 30, 200⟩]] 0 0 200 rfl

/-- Claim C6: the pixel transformation is idempotent — applying it to its own
output gives a bitwise-identical image. -/
theorem C6_transform_idempotent (img : Img) :
    transformImage (transformImage img) = transformImage img := by
  simp only [transformImage, List.map_map, Function.comp_def,
    transformPixel_idem]

/-- Witness for C6 on Scenario A. -/
theorem C6_witness :
    transformImage (transformImage imgA) = transformImage imgA :=
  C6_transform_idempotent imgA

/-- Claim C7: decode and write errors are never caught — a decode failure
yields the decode error with an empty event trace (no file is produced, the
save is never reached), a write failure yields the write error, and the call
returns success only when decoding and the write both succeeded. -/
theorem C7_errors_propagate (env : Env) (ip op : String) :
    (env.load ip = none →
      (remove_black_background env ip op).2 = Except.error RBError.decodeFailure ∧
      (remove_black_background env ip op).1 = []) ∧
    (∀ (img : Img) (fmt : String), env.load ip = some img →
      pilFormatFromExtension op = some fmt →
      env.write op (transformImage img) ≠ WriteResult.ok →
      (remove_black_background env ip op).2 = Except.error RBError.writeFailure) ∧
    ((remove_black_background env ip op).2 = Except.ok () →
      ∃ img, env.load ip = some img ∧
        env.write op (transformImage img) = WriteResult.ok) := by
  refine ⟨?_, ?_, ?_⟩
  · intro h
    rw [run_eq_of_load_none op h]
    exact ⟨rfl, rfl⟩
  · intro img fmt himg hfmt hw
    unfold remove_black_background
    rw [himg]
    dsimp only
    rw [hfmt]
    dsimp only
    by_cases hsa : pilAcceptsRGBA fmt = true
    · rw [if_pos hsa]
      cases hwr : env.write op (transformImage img) with
      | ok => exact absurd hwr hw
      | failTruncated => rfl
      | failAbsent => rfl
    · rw [if_neg hsa]
  · intro h
    obtain ⟨img, fmt, himg, _, _, hw⟩ := run_ok_inv h
    exact ⟨img, himg, hw⟩

/-- Witness for C7: a failing decode produces the decode error and an empty
trace. -/
theorem C7_witness :
    (remove_black_background envNoLoad "in.png" "out.png").2 =
      Except.error RBError.decodeFailure ∧
    (remove_black_background envNoLoad "in.png" "out.png").1 = [] :=
  (C7_errors_propagate envNoLoad "in.png" "out.png").1 rfl

/-- Claim C8: a successful run emits exactly one line to standard output,
that line contains the literal output path (it is the fixed prefix
"Processed image saved to " followed by the path), and the print event comes
after the write of the output file in the trace. -/
theorem C8_single_line_after_save (env : Env) (ip op : String)
    (h : (remove_black_background env ip op).2 = Except.ok ()) :
    ∃ fmt data,
      (remove_black_background env ip op).1 =
        [Event.wrote op fmt data,
         Event.printed ("Processed image saved to " ++ op)] ∧
      printedLines (remove_black_background env ip op).1 =
        ["Processed image saved to " ++ op] := by
  obtain ⟨img, fmt, _, _, htr⟩ := run_trace_of_ok h
  refine ⟨fmt, transformImage img, htr, ?_⟩
  rw [htr]
  rfl

/-- Witness for C8 on a successful `.png` run. -/
theorem C8_witness :
    ∃ fmt data,
      (remove_black_background envA "in.png" "out.png").1 =
        [Event.wrote "out.png" fmt data,
         Event.printed ("Processed image saved to " ++ "out.png")] ∧
      printedLines (remove_black_background envA "in.png" "out.png").1 =
        ["Processed image saved to " ++ "out.png"] :=
  C8_single_line_after_save envA "in.png" "out.png" rfl

/-- Claim C9 (implicit): the output alpha at any position is at most the
input alpha there — the transformation never increases opacity. -/
theorem C9_alpha_never_increases (img : Img) (y x : Nat) (p q : Pixel)
    (hp : getPixel img y x = some p)
    (hq : getPixel (transformImage img) y x = some q) :
    q.a ≤ p.a := by
  rw [getPixel_transformImage, hp, Option.map_some'] at hq
  obtain rfl : transformPixel p = q := Option.some.inj hq
  exact transformPixel_a_le p

/-- Witness for C9 at Scenario A's black pixel. -/
theorem C9_witness :
    (⟨0, 0, 0, 0⟩ : Pixel).a ≤ (⟨0, 0, 0, 255⟩ : Pixel).a :=
  C9_alpha_never_increases imgA 0 0 ⟨0, 0, 0, 255⟩ ⟨0, 0, 0, 0⟩ rfl (by decide)

/-- Claim C10 (implicit): the transformation is pointwise — two input images
that agree at a position produce outputs that agree at that position,
whatever the images do elsewhere. -/
theorem C10_pointwise (img1 img2 : Img) (y x : Nat)
    (h : getPixel img1 y x = getPixel img2 y x) :
    getPixel (transformImage img1) y x = getPixel (transformImage img2) y x := by
  rw [getPixel_transformImage, getPixel_transformImage, h]

/-- Witness for C10: Scenario A and a 1×1 image share the pixel at (0,0) and
the outputs agree there. -/
theorem C10_witness :
    getPixel (transformImage imgA) 0 0 =
      getPixel (transformImage [[⟨0, 0, 0, 255⟩]]) 0 0 :=
  C10_pointwise imgA [[⟨0, 0, 0, 255⟩]] 0 0 (by decide)

end RemoveBg
